import Mathlib

/-
Verification of the SolRpcClient adapter (src/swqos/solana_rpc.rs) of
sol-trade-sdk: a shallow embedding of send_transaction, send_transactions,
print_versioned_transaction_instructions, get_tip_account and
get_swqos_type, with theorems about their observable behaviour.

The RPC network client and the shared confirmation poller live outside this
fragment; they are modelled as opaque functions supplied by an environment,
and the adapter is given as a pure function from that environment to a
result together with an ordered trace of its observable events (collaborator
calls and structured log lines).  A run that hits an out-of-bounds vector
index in the diagnostic dump is a Rust panic and is modelled as none.
-/

namespace SolanaRpc

/-- Public keys are opaque identifiers; modelled as naturals. -/
abbrev Pubkey := Nat

/-- Transaction signatures returned by submission; opaque identifiers. -/
abbrev Signature := Nat

/-- The single opaque error type (anyhow::Error); modelled as naturals. -/
abbrev Err := Nat

/-- Modelled from the spec: TradeType is a caller-supplied tag used only for
log annotation (its declaration is outside this fragment); an opaque tag. -/
abbrev TradeType := Nat

/-- Commitment levels of solana_commitment_config. -/
inductive CommitmentLevel where
  | Processed
  | Confirmed
  | Finalized
deriving DecidableEq, Repr

/-- Transaction encodings of solana_transaction_status (the two relevant). -/
inductive UiTransactionEncoding where
  | Base58
  | Base64
deriving DecidableEq, Repr

/-- RpcSendTransactionConfig of solana_client, the fields the adapter sets. -/
structure RpcSendTransactionConfig where
  skip_preflight : Bool
  preflight_commitment : Option CommitmentLevel
  encoding : Option UiTransactionEncoding
  max_retries : Option Nat
  min_context_slot : Option Nat
deriving DecidableEq, Repr

/-- A compiled instruction: program id index into the account key table,
account index list, raw data bytes. -/
structure CompiledInstruction where
  program_id_index : Nat
  accounts : List Nat
  data : List Nat
deriving DecidableEq, Repr

/-- The part of a message the dump reads: account key table and
instruction list (shared shape of legacy and V0 messages). -/
structure Message where
  account_keys : List Pubkey
  instructions : List CompiledInstruction
deriving DecidableEq, Repr

/-- VersionedMessage of solana_sdk: V0 or Legacy. -/
inductive VersionedMessage where
  | V0 (m : Message)
  | Legacy (m : Message)
deriving DecidableEq, Repr

/-- VersionedTransaction of solana_sdk, restricted to the message, the only
field this fragment reads. -/
structure VersionedTransaction where
  message : VersionedMessage
deriving DecidableEq, Repr

/-- Tag naming the message variant, as printed by the dump. -/
inductive VersionTag where
  | V0
  | Legacy
deriving DecidableEq, Repr

/-- The message carried by a transaction, whichever variant. -/
def msgOf (tx : VersionedTransaction) : Message :=
  match tx.message with
  | .V0 m => m
  | .Legacy m => m

/-- The variant tag of a transaction message. -/
def tagOf (tx : VersionedTransaction) : VersionTag :=
  match tx.message with
  | .V0 _ => .V0
  | .Legacy _ => .Legacy

/-- Observable events of a run, in order: collaborator calls and the
structured content of each log line the adapter emits. -/
inductive Event where
  | submitCall (tx : VersionedTransaction) (cfg : RpcSendTransactionConfig)
  | pollCall (sig : Signature) (wait : Bool)
  | logErrorSignature (sig : Signature)
  | logErrorConfirmFailed (t : TradeType) (elapsed : Nat)
  | logErrorVersionTag (v : VersionTag)
  | logErrorInstrHeader (i : Nat)
  | logErrorProgramId (p : Pubkey)
  | logErrorAccounts (a : List Nat)
  | logErrorData (d : List Nat)
  | logErrorRpcError (e : Err)
  | logInfoSignature (sig : Signature)
  | logInfoConfirmed (t : TradeType) (elapsed : Nat)
deriving DecidableEq, Repr

/-- The transaction submitted by an event, when the event is the RPC
submission call. -/
def Event.submittedTx : Event → Option VersionedTransaction
  | .submitCall tx _ => some tx
  | _ => none

/-- Whether an event is the RPC submission call. -/
def Event.isSubmitCall (ev : Event) : Bool :=
  ev.submittedTx.isSome

/-- Whether an event is an invocation of the confirmation poller. -/
def Event.isPollCall : Event → Bool
  | .pollCall _ _ => true
  | _ => false

/-- Whether an event is an info-level (success) log line. -/
def Event.isInfo : Event → Bool
  | .logInfoSignature _ => true
  | .logInfoConfirmed _ _ => true
  | _ => false

/-- Whether a log line carries the given signature. -/
def Event.mentionsSig (s : Signature) : Event → Bool
  | .logInfoSignature sig => sig == s
  | .logErrorSignature sig => sig == s
  | _ => false

/-- Whether a log line carries the elapsed duration. -/
def Event.mentionsElapsed : Event → Bool
  | .logInfoConfirmed _ _ => true
  | .logErrorConfirmFailed _ _ => true
  | _ => false

/-- Modelled from the spec: the collaborators outside this fragment, per
section 6 of the spec.  submit is the RPC client method
send_transaction_with_config (returning a signature or an error); poll is
the shared helper poll_transaction_confirmation (signature and wait flag to
unit or error); elapsed is the wall-clock duration the adapter observes and
logs. -/
structure Env where
  submit : VersionedTransaction → RpcSendTransactionConfig → Except Err Signature
  poll : Signature → Bool → Except Err Unit
  elapsed : Nat

/-- The adapter state: it holds only the shared RPC client handle. -/
structure SolRpcClient where
  rpc_client : Env

/-- SwqosType of the swqos module; this adapter uses the Default variant. -/
inductive SwqosType where
  | Default
deriving DecidableEq, Repr

/-- The fixed configuration send_transaction passes to
send_transaction_with_config. -/
def sendConfig : RpcSendTransactionConfig :=
  { skip_preflight := true
    preflight_commitment := some CommitmentLevel.Processed
    encoding := some UiTransactionEncoding.Base64
    max_retries := some 3
    min_context_slot := some 0 }

/-- The per-instruction part of the dump: for each instruction, index the
account key table at program_id_index (a Rust vector index that panics out
of bounds, hence Option), then log the header, program id, account indices
and data bytes.  i is the running enumeration index. -/
def dumpInstrs (keys : List Pubkey) : Nat → List CompiledInstruction → Option (List Event)
  | _, [] => some []
  | i, ins :: rest =>
    match keys[ins.program_id_index]? with
    | none => none
    | some pid =>
      (dumpInstrs keys (i + 1) rest).map fun d =>
        Event.logErrorInstrHeader i :: Event.logErrorProgramId pid ::
          Event.logErrorAccounts ins.accounts :: Event.logErrorData ins.data :: d

/-- print_versioned_transaction_instructions: log the variant tag, then the
per-instruction dump; both branches read account_keys and instructions the
same way.  none models the panic on an out-of-bounds program_id_index. -/
def print_versioned_transaction_instructions (tx : VersionedTransaction) :
    Option (List Event) :=
  match tx.message with
  | .V0 m =>
    (dumpInstrs m.account_keys 0 m.instructions).map fun d =>
      Event.logErrorVersionTag .V0 :: d
  | .Legacy m =>
    (dumpInstrs m.account_keys 0 m.instructions).map fun d =>
      Event.logErrorVersionTag .Legacy :: d

/-- send_transaction: submit with the fixed config (propagating a submission
error at once), then invoke the confirmation poller with the returned
signature and the wait flag; on poller error log the signature, the elapsed
duration, the instruction dump and the error and return the error; on poller
success log the two confirmation lines when wait_confirmation is set and
return success.  Result: none for a panic, otherwise the Rust result paired
with the ordered event trace. -/
def send_transaction (env : Env) (trade_type : TradeType)
    (transaction : VersionedTransaction) (wait_confirmation : Bool) :
    Option (Except Err Unit × List Event) :=
  match env.submit transaction sendConfig with
  | .error e => some (.error e, [Event.submitCall transaction sendConfig])
  | .ok signature =>
    match env.poll signature wait_confirmation with
    | .error e =>
      match print_versioned_transaction_instructions transaction with
      | none => none
      | some dump =>
        some (.error e,
          Event.submitCall transaction sendConfig ::
            Event.pollCall signature wait_confirmation ::
            Event.logErrorSignature signature ::
            Event.logErrorConfirmFailed trade_type env.elapsed ::
            dump ++ [Event.logErrorRpcError e])
    | .ok _ =>
      if wait_confirmation then
        some (.ok (),
          [Event.submitCall transaction sendConfig,
           Event.pollCall signature wait_confirmation,
           Event.logInfoSignature signature,
           Event.logInfoConfirmed trade_type env.elapsed])
      else
        some (.ok (),
          [Event.submitCall transaction sendConfig,
           Event.pollCall signature wait_confirmation])

/-- The result component of a send_transaction run (none for a panic). -/
def txResult (env : Env) (trade_type : TradeType)
    (transaction : VersionedTransaction) (wait_confirmation : Bool) :
    Option (Except Err Unit) :=
  (send_transaction env trade_type transaction wait_confirmation).map Prod.fst

/-- send_transactions: send each transaction in order via send_transaction,
stopping at the first error (or panic) and propagating it. -/
def send_transactions (env : Env) (trade_type : TradeType) :
    List VersionedTransaction → Bool → Option (Except Err Unit × List Event)
  | [], _ => some (.ok (), [])
  | tx :: rest, wait_confirmation =>
    match send_transaction env trade_type tx wait_confirmation with
    | none => none
    | some (.error e, tr) => some (.error e, tr)
    | some (.ok _, tr) =>
      match send_transactions env trade_type rest wait_confirmation with
      | none => none
      | some (r, tr2) => some (r, tr ++ tr2)

/-- get_tip_account: always the empty string for this provider. -/
def get_tip_account (_c : SolRpcClient) : Except Err String :=
  .ok ""

/-- get_swqos_type: always the Default variant for this provider. -/
def get_swqos_type (_c : SolRpcClient) : SwqosType :=
  .Default

/-- The transactions a trace shows as submitted, in order. -/
def attempts (tr : List Event) : List VersionedTransaction :=
  tr.filterMap Event.submittedTx

/-- Whether an event is one of the lines the diagnostic dump emits. -/
def Event.isDumpLine : Event → Bool
  | .logErrorVersionTag _ => true
  | .logErrorInstrHeader _ => true
  | .logErrorProgramId _ => true
  | .logErrorAccounts _ => true
  | .logErrorData _ => true
  | _ => false

theorem isDumpLine_props (ev : Event) (h : ev.isDumpLine = true) :
    ev.submittedTx = none ∧ ev.isPollCall = false ∧ ev.isInfo = false := by
  cases ev <;>
    simp [Event.isDumpLine, Event.submittedTx, Event.isPollCall, Event.isInfo] at h ⊢

theorem dumpInstrs_none (keys : List Pubkey) :
    ∀ (l : List CompiledInstruction) (i : Nat),
      (∃ ins ∈ l, keys.length ≤ ins.program_id_index) →
      dumpInstrs keys i l = none := by
  intro l
  induction l with
  | nil =>
    intro i h
    obtain ⟨ins, hmem, _⟩ := h
    exact absurd hmem (List.not_mem_nil ins)
  | cons a rest ih =>
    intro i h
    obtain ⟨ins, hmem, hle⟩ := h
    rcases List.mem_cons.mp hmem with heq | htail
    · subst heq
      have hk : keys[ins.program_id_index]? = none := List.getElem?_eq_none hle
      simp [dumpInstrs, hk]
    · cases hk : keys[a.program_id_index]? with
      | none => simp [dumpInstrs, hk]
      | some pid => simp [dumpInstrs, hk, ih i.succ ⟨ins, htail, hle⟩]

theorem dumpInstrs_some (keys : List Pubkey) :
    ∀ (l : List CompiledInstruction) (i : Nat),
      (∀ ins ∈ l, ins.program_id_index < keys.length) →
      ∃ d, dumpInstrs keys i l = some d ∧
        ∀ ins ∈ l, ∃ pid, keys[ins.program_id_index]? = some pid ∧
          Event.logErrorProgramId pid ∈ d ∧
          Event.logErrorAccounts ins.accounts ∈ d ∧
          Event.logErrorData ins.data ∈ d := by
  intro l
  induction l with
  | nil =>
    intro i _
    exact ⟨[], rfl, fun ins h => absurd h (List.not_mem_nil ins)⟩
  | cons a rest ih =>
    intro i hb
    have ha : a.program_id_index < keys.length := hb a (List.mem_cons_self a rest)
    obtain ⟨d, hd, hmemd⟩ := ih (i + 1) fun ins h => hb ins (List.mem_cons_of_mem a h)
    refine ⟨Event.logErrorInstrHeader i ::
        Event.logErrorProgramId keys[a.program_id_index] ::
        Event.logErrorAccounts a.accounts :: Event.logErrorData a.data :: d,
      by simp [dumpInstrs, List.getElem?_eq_getElem ha, hd], ?_⟩
    intro ins h
    rcases List.mem_cons.mp h with heq | htail
    · subst heq
      exact ⟨keys[ins.program_id_index], List.getElem?_eq_getElem ha,
        by simp, by simp, by simp⟩
    · obtain ⟨pid, h1, h2, h3, h4⟩ := hmemd ins htail
      exact ⟨pid, h1, by simp [h2], by simp [h3], by simp [h4]⟩

theorem dumpInstrs_shape (keys : List Pubkey) :
    ∀ (l : List CompiledInstruction) (i : Nat) (d : List Event),
      dumpInstrs keys i l = some d → ∀ ev ∈ d, ev.isDumpLine = true := by
  intro l
  induction l with
  | nil =>
    intro i d hd ev hev
    simp [dumpInstrs] at hd
    subst hd
    exact absurd hev (List.not_mem_nil ev)
  | cons a rest ih =>
    intro i d hd ev hev
    cases hk : keys[a.program_id_index]? with
    | none => simp [dumpInstrs, hk] at hd
    | some pid =>
      simp only [dumpInstrs, hk, Option.map_eq_some'] at hd
      obtain ⟨d0, hd0, heq⟩ := hd
      subst heq
      rcases List.mem_cons.mp hev with rfl | hev
      · rfl
      rcases List.mem_cons.mp hev with rfl | hev
      · rfl
      rcases List.mem_cons.mp hev with rfl | hev
      · rfl
      rcases List.mem_cons.mp hev with rfl | hev
      · rfl
      exact ih (i + 1) d0 hd0 ev hev

theorem print_shape (tx : VersionedTransaction) (d : List Event)
    (hd : print_versioned_transaction_instructions tx = some d) :
    ∀ ev ∈ d, ev.isDumpLine = true := by
  intro ev hev
  cases hm : tx.message with
  | V0 m =>
    rw [print_versioned_transaction_instructions, hm] at hd
    simp [Option.map_eq_some'] at hd
    obtain ⟨d0, hd0, heq⟩ := hd
    subst heq
    rcases List.mem_cons.mp hev with rfl | hev
    · rfl
    · exact dumpInstrs_shape m.account_keys m.instructions 0 d0 hd0 ev hev
  | Legacy m =>
    rw [print_versioned_transaction_instructions, hm] at hd
    simp [Option.map_eq_some'] at hd
    obtain ⟨d0, hd0, heq⟩ := hd
    subst heq
    rcases List.mem_cons.mp hev with rfl | hev
    · rfl
    · exact dumpInstrs_shape m.account_keys m.instructions 0 d0 hd0 ev hev

theorem send_transaction_trace (env : Env) (t : TradeType)
    (tx : VersionedTransaction) (w : Bool) (res : Except Err Unit)
    (tr : List Event) (h : send_transaction env t tx w = some (res, tr)) :
    ∃ rest, tr = Event.submitCall tx sendConfig :: rest ∧
      ∀ ev ∈ rest, ev.submittedTx = none := by
  unfold send_transaction at h
  cases hsub : env.submit tx sendConfig with
  | error e =>
    rw [hsub] at h
    simp at h
    exact ⟨[], h.2.symm, fun ev hev => absurd hev (List.not_mem_nil ev)⟩
  | ok s =>
    rw [hsub] at h
    simp only [] at h
    cases hp : env.poll s w with
    | error e =>
      rw [hp] at h
      simp only [] at h
      cases hd : print_versioned_transaction_instructions tx with
      | none => rw [hd] at h; exact absurd h (by simp)
      | some d =>
        rw [hd] at h
        simp at h
        refine ⟨_, h.2.symm, ?_⟩
        intro ev hev
        rcases List.mem_cons.mp hev with rfl | hev
        · rfl
        rcases List.mem_cons.mp hev with rfl | hev
        · rfl
        rcases List.mem_cons.mp hev with rfl | hev
        · rfl
        rcases List.mem_append.mp hev with hev | hev
        · exact (isDumpLine_props ev (print_shape tx d hd ev hev)).1
        · rcases List.mem_cons.mp hev with rfl | hev
          · rfl
          · exact absurd hev (List.not_mem_nil ev)
    | ok u =>
      rw [hp] at h
      simp only [] at h
      cases w with
      | true =>
        simp at h
        refine ⟨_, h.2.symm, ?_⟩
        intro ev hev
        rcases List.mem_cons.mp hev with rfl | hev
        · rfl
        rcases List.mem_cons.mp hev with rfl | hev
        · rfl
        rcases List.mem_cons.mp hev with rfl | hev
        · rfl
        exact absurd hev (List.not_mem_nil ev)
      | false =>
        simp at h
        refine ⟨_, h.2.symm, ?_⟩
        intro ev hev
        rcases List.mem_cons.mp hev with rfl | hev
        · rfl
        exact absurd hev (List.not_mem_nil ev)

theorem send_transaction_attempts (env : Env) (t : TradeType)
    (tx : VersionedTransaction) (w : Bool) (res : Except Err Unit)
    (tr : List Event) (h : send_transaction env t tx w = some (res, tr)) :
    attempts tr = [tx] := by
  obtain ⟨rest, hre, hnone⟩ := send_transaction_trace env t tx w res tr h
  subst hre
  have : attempts rest = [] := by
    simp only [attempts, List.filterMap_eq_nil_iff]
    exact hnone
  simp [attempts, Event.submittedTx] at this ⊢
  exact this

theorem attempts_append (a b : List Event) :
    attempts (a ++ b) = attempts a ++ attempts b := by
  simp [attempts]

/-- A legacy transaction with no account keys and no instructions. -/
def txLegacyEmpty : VersionedTransaction := ⟨.Legacy ⟨[], []⟩⟩

/-- A V0 transaction with no account keys and no instructions. -/
def txV0Empty : VersionedTransaction := ⟨.V0 ⟨[], []⟩⟩

/-- A V0 transaction with an instruction whose program id index 0 points
past the empty account key table. -/
def txOOB : VersionedTransaction := ⟨.V0 ⟨[], [⟨0, [], []⟩]⟩⟩

/-- A legacy transaction with one in-bounds instruction. -/
def txGood : VersionedTransaction := ⟨.Legacy ⟨[42], [⟨0, [1, 2], [3]⟩]⟩⟩

/-- An environment whose submission and poll both succeed. -/
def envOk : Env := ⟨fun _ _ => .ok 0, fun _ _ => .ok (), 7⟩

/-- An environment whose submission succeeds and whose poll fails. -/
def envPollFail : Env := ⟨fun _ _ => .ok 3, fun _ _ => .error 9, 7⟩

/-- An environment whose submission itself fails. -/
def envSubFail : Env := ⟨fun _ _ => .error 2, fun _ _ => .ok (), 7⟩

/-- An environment that rejects the submission of txV0Empty and accepts
every other transaction. -/
def envBatch : Env :=
  ⟨fun tx _ => if tx = txV0Empty then .error 7 else .ok 0, fun _ _ => .ok (), 7⟩

/-- C4: every call of send_transaction submits through
send_transaction_with_config with exactly the fixed configuration:
skip_preflight true, preflight commitment Processed, encoding Base64, max
retries 3, and min context slot 0 (the vacuous slot constraint); the
submission is the first event of the run and the only submission event. -/
theorem C4_fixed_config (env : Env) (t : TradeType) (tx : VersionedTransaction)
    (w : Bool) (res : Except Err Unit) (tr : List Event)
    (h : send_transaction env t tx w = some (res, tr)) :
    tr.head? = some (Event.submitCall tx
      { skip_preflight := true
        preflight_commitment := some CommitmentLevel.Processed
        encoding := some UiTransactionEncoding.Base64
        max_retries := some 3
        min_context_slot := some 0 }) ∧
    ∀ ev ∈ tr, ev.isSubmitCall = true →
      ev = Event.submitCall tx
        { skip_preflight := true
          preflight_commitment := some CommitmentLevel.Processed
          encoding := some UiTransactionEncoding.Base64
          max_retries := some 3
          min_context_slot := some 0 } := by
  obtain ⟨rest, hre, hnone⟩ := send_transaction_trace env t tx w res tr h
  subst hre
  refine ⟨rfl, ?_⟩
  intro ev hev hsubc
  rcases List.mem_cons.mp hev with rfl | hev
  · rfl
  · simp [Event.isSubmitCall, hnone ev hev] at hsubc

/-- C4 witness: the fixed configuration at a concrete successful run. -/
theorem C4_fixed_config_witness :
    ([Event.submitCall txLegacyEmpty sendConfig,
        Event.pollCall 0 false] : List Event).head? = some (Event.submitCall txLegacyEmpty
      { skip_preflight := true
        preflight_commitment := some CommitmentLevel.Processed
        encoding := some UiTransactionEncoding.Base64
        max_retries := some 3
        min_context_slot := some 0 }) ∧
    ∀ ev ∈ ([Event.submitCall txLegacyEmpty sendConfig,
        Event.pollCall 0 false] : List Event), ev.isSubmitCall = true →
      ev = Event.submitCall txLegacyEmpty
        { skip_preflight := true
          preflight_commitment := some CommitmentLevel.Processed
          encoding := some UiTransactionEncoding.Base64
          max_retries := some 3
          min_context_slot := some 0 } :=
  C4_fixed_config envOk 0 txLegacyEmpty false (.ok ())
    [Event.submitCall txLegacyEmpty sendConfig, Event.pollCall 0 false] rfl

/-- C5: two calls of send_transaction that differ only in the trade_type
argument return the same result (trade_type only annotates log lines). -/
theorem C5_trade_type_no_effect (env : Env) (tx : VersionedTransaction)
    (w : Bool) (t1 t2 : TradeType) :
    txResult env t1 tx w = txResult env t2 tx w := by
  unfold txResult
  cases hsub : env.submit tx sendConfig with
  | error e => simp [send_transaction, hsub]
  | ok s =>
    cases hp : env.poll s w with
    | error e =>
      cases hd : print_versioned_transaction_instructions tx with
      | none => simp [send_transaction, hsub, hp, hd]
      | some d => simp [send_transaction, hsub, hp, hd]
    | ok u =>
      cases w <;> simp [send_transaction, hsub, hp]

/-- C6: get_tip_account returns Ok of the empty string for every state of
the client. -/
theorem C6_tip_account_empty (c : SolRpcClient) :
    get_tip_account c = .ok "" := rfl

/-- C8: when the RPC submission itself fails, send_transaction returns the
submission error and its trace is the lone submission call: no poller
invocation and no diagnostic dump line. -/
theorem C8_submit_error_propagates (env : Env) (t : TradeType)
    (tx : VersionedTransaction) (w : Bool) (e : Err)
    (hs : env.submit tx sendConfig = .error e) :
    send_transaction env t tx w =
      some (.error e, [Event.submitCall tx sendConfig]) ∧
    ([Event.submitCall tx sendConfig] : List Event).filter Event.isPollCall = [] ∧
    ([Event.submitCall tx sendConfig] : List Event).filter Event.isDumpLine = [] := by
  refine ⟨?_, ?_, ?_⟩
  · simp [send_transaction, hs]
  · simp [Event.isPollCall]
  · simp [Event.isDumpLine]

/-- C8 witness: a concrete failing submission. -/
theorem C8_submit_error_propagates_witness :
    send_transaction envSubFail 0 txLegacyEmpty false =
      some (.error 2, [Event.submitCall txLegacyEmpty sendConfig]) ∧
    ([Event.submitCall txLegacyEmpty sendConfig] : List Event).filter
      Event.isPollCall = [] ∧
    ([Event.submitCall txLegacyEmpty sendConfig] : List Event).filter
      Event.isDumpLine = [] :=
  C8_submit_error_propagates envSubFail 0 txLegacyEmpty false 2 rfl

/-- C9: the diagnostic dump indexes account_keys by program_id_index with
no bounds check; when some instruction's program_id_index is at least the
length of account_keys the dump panics (modelled as none), in both the V0
and the Legacy branch. -/
theorem C9_dump_panics_oob (keys : List Pubkey)
    (instrs : List CompiledInstruction)
    (h : ∃ ins ∈ instrs, keys.length ≤ ins.program_id_index) :
    print_versioned_transaction_instructions ⟨.V0 ⟨keys, instrs⟩⟩ = none ∧
    print_versioned_transaction_instructions ⟨.Legacy ⟨keys, instrs⟩⟩ = none := by
  have hn := dumpInstrs_none keys instrs 0 h
  constructor <;> simp [print_versioned_transaction_instructions, hn]

/-- C9 witness: the out-of-bounds dump at a concrete transaction. -/
theorem C9_dump_panics_oob_witness :
    print_versioned_transaction_instructions ⟨.V0 ⟨[], [⟨0, [], []⟩]⟩⟩ = none ∧
    print_versioned_transaction_instructions ⟨.Legacy ⟨[], [⟨0, [], []⟩]⟩⟩ = none :=
  C9_dump_panics_oob [] [⟨0, [], []⟩] ⟨⟨0, [], []⟩, by simp, by simp⟩

/-- C10: on the empty transaction list, send_transactions succeeds with an
empty trace, for every environment, trade type and wait flag. -/
theorem C10_empty_batch (env : Env) (t : TradeType) (w : Bool) :
    send_transactions env t [] w = some (.ok (), []) := rfl

/-- C1 counterexample: it is not true that a successful submission with
wait_confirmation false returns success with no poller invocation in the
trace; the code invokes the poller unconditionally. -/
theorem C1_counterexample :
    ¬ (∀ (env : Env) (t : TradeType) (tx : VersionedTransaction)
        (s : Signature), env.submit tx sendConfig = .ok s →
        ∃ tr, send_transaction env t tx false = some (.ok (), tr) ∧
          tr.filter Event.isPollCall = []) := by
  intro h
  obtain ⟨tr, htr, hnp⟩ := h envOk 0 txLegacyEmpty 0 rfl
  have hval : send_transaction envOk 0 txLegacyEmpty false =
      some (.ok (), [Event.submitCall txLegacyEmpty sendConfig,
        Event.pollCall 0 false]) := rfl
  rw [hval] at htr
  simp at htr
  subst htr
  simp [Event.isPollCall] at hnp

/-- C1 amended: when the submission succeeds and wait_confirmation is
false, send_transaction still invokes the confirmation poller (with wait
false) and inspects its result: on poller success it returns success with a
trace of exactly the submission and the poll call (no log line), and on
poller failure it does not return success. -/
theorem C1_no_wait_still_polls (env : Env) (t : TradeType)
    (tx : VersionedTransaction) (s : Signature)
    (hs : env.submit tx sendConfig = .ok s) :
    (env.poll s false = .ok () →
      send_transaction env t tx false =
        some (.ok (), [Event.submitCall tx sendConfig,
          Event.pollCall s false])) ∧
    ∀ e, env.poll s false = .error e →
      txResult env t tx false ≠ some (.ok ()) := by
  constructor
  · intro hp
    simp [send_transaction, hs, hp]
  · intro e hp
    cases hd : print_versioned_transaction_instructions tx with
    | none => simp [txResult, send_transaction, hs, hp, hd]
    | some d => simp [txResult, send_transaction, hs, hp, hd]

/-- C1 witness: a concrete successful submission with wait false. -/
theorem C1_no_wait_still_polls_witness :
    (envOk.poll 0 false = .ok () →
      send_transaction envOk 0 txLegacyEmpty false =
        some (.ok (), [Event.submitCall txLegacyEmpty sendConfig,
          Event.pollCall 0 false])) ∧
    ∀ e, envOk.poll 0 false = .error e →
      txResult envOk 0 txLegacyEmpty false ≠ some (.ok ()) :=
  C1_no_wait_still_polls envOk 0 txLegacyEmpty 0 rfl

/-- C7 counterexample: on a confirmed success with wait_confirmation true
the adapter does not log exactly one success line carrying both the
signature and the elapsed duration; it logs two separate info lines. -/
theorem C7_counterexample :
    ¬ (∀ (env : Env) (t : TradeType) (tx : VersionedTransaction)
        (s : Signature), env.submit tx sendConfig = .ok s →
        env.poll s true = .ok () →
        ∃ tr, send_transaction env t tx true = some (.ok (), tr) ∧
          ∃ l, tr.filter Event.isInfo = [l] ∧
            Event.mentionsSig s l = true ∧ Event.mentionsElapsed l = true) := by
  intro h
  obtain ⟨tr, htr, l, hl, _, _⟩ := h envOk 0 txLegacyEmpty 0 rfl rfl
  have hval : send_transaction envOk 0 txLegacyEmpty true =
      some (.ok (), [Event.submitCall txLegacyEmpty sendConfig,
        Event.pollCall 0 true, Event.logInfoSignature 0,
        Event.logInfoConfirmed 0 7]) := rfl
  rw [hval] at htr
  simp at htr
  subst htr
  have hfil : ([Event.submitCall txLegacyEmpty sendConfig,
      Event.pollCall 0 true, Event.logInfoSignature 0,
      Event.logInfoConfirmed 0 7] : List Event).filter Event.isInfo =
      [Event.logInfoSignature 0, Event.logInfoConfirmed 0 7] := rfl
  rw [hfil] at hl
  simp at hl

/-- C7 amended: on a confirmed success with wait_confirmation true the call
returns success after the poll call, with exactly two info log lines
emitted after the poll: first the signature line, then the line with the
trade type and the elapsed duration. -/
theorem C7_confirmed_logs_two_lines (env : Env) (t : TradeType)
    (tx : VersionedTransaction) (s : Signature)
    (hs : env.submit tx sendConfig = .ok s)
    (hp : env.poll s true = .ok ()) :
    ∃ tr, send_transaction env t tx true = some (.ok (), tr) ∧
      tr = [Event.submitCall tx sendConfig, Event.pollCall s true,
        Event.logInfoSignature s, Event.logInfoConfirmed t env.elapsed] ∧
      tr.filter Event.isInfo =
        [Event.logInfoSignature s, Event.logInfoConfirmed t env.elapsed] := by
  refine ⟨_, ?_, rfl, ?_⟩
  · simp [send_transaction, hs, hp]
  · simp [List.filter, Event.isInfo]

/-- C7 witness: a concrete confirmed success with wait true. -/
theorem C7_confirmed_logs_two_lines_witness :
    ∃ tr, send_transaction envOk 0 txLegacyEmpty true = some (.ok (), tr) ∧
      tr = [Event.submitCall txLegacyEmpty sendConfig, Event.pollCall 0 true,
        Event.logInfoSignature 0, Event.logInfoConfirmed 0 envOk.elapsed] ∧
      tr.filter Event.isInfo =
        [Event.logInfoSignature 0, Event.logInfoConfirmed 0 envOk.elapsed] :=
  C7_confirmed_logs_two_lines envOk 0 txLegacyEmpty 0 rfl rfl

/-- C3 counterexample: a transaction whose instruction has an out-of-bounds
program id index makes the dump panic, so send_transaction does not return
the poller error on it; the claim fails over all transactions. -/
theorem C3_counterexample :
    ¬ (∀ (env : Env) (t : TradeType) (tx : VersionedTransaction) (w : Bool)
        (s : Signature) (e : Err),
        env.submit tx sendConfig = .ok s → env.poll s w = .error e →
        txResult env t tx w = some (.error e)) := by
  intro h
  have h1 := h envPollFail 0 txOOB true 3 9 rfl rfl
  have h2 : txResult envPollFail 0 txOOB true = none := rfl
  rw [h2] at h1
  exact Option.noConfusion h1

/-- C3 amended: for a transaction all of whose instruction program id
indices are within the account key table, when the submission succeeds and
the confirmation poll fails, send_transaction returns exactly the poller
error and its trace carries the signature line, the elapsed-duration line,
the version tag of the message (V0 or Legacy), a per-instruction dump line
with the program id, the account indices and the raw data bytes of every
instruction, and the error line. -/
theorem C3_poll_error_dump (env : Env) (t : TradeType)
    (tx : VersionedTransaction) (w : Bool) (s : Signature) (e : Err)
    (hsub : env.submit tx sendConfig = .ok s)
    (hpoll : env.poll s w = .error e)
    (hb : ∀ ins ∈ (msgOf tx).instructions,
      ins.program_id_index < (msgOf tx).account_keys.length) :
    ∃ tr, send_transaction env t tx w = some (.error e, tr) ∧
      Event.logErrorSignature s ∈ tr ∧
      Event.logErrorConfirmFailed t env.elapsed ∈ tr ∧
      Event.logErrorRpcError e ∈ tr ∧
      Event.logErrorVersionTag (tagOf tx) ∈ tr ∧
      ∀ ins ∈ (msgOf tx).instructions, ∃ pid,
        (msgOf tx).account_keys[ins.program_id_index]? = some pid ∧
        Event.logErrorProgramId pid ∈ tr ∧
        Event.logErrorAccounts ins.accounts ∈ tr ∧
        Event.logErrorData ins.data ∈ tr := by
  obtain ⟨d, hd, hmem⟩ :=
    dumpInstrs_some (msgOf tx).account_keys (msgOf tx).instructions 0 hb
  have hpr : print_versioned_transaction_instructions tx =
      some (Event.logErrorVersionTag (tagOf tx) :: d) := by
    cases hm : tx.message with
    | V0 m =>
      have hmsg : msgOf tx = m := by simp [msgOf, hm]
      rw [hmsg] at hd
      simp [print_versioned_transaction_instructions, hm, hd, tagOf]
    | Legacy m =>
      have hmsg : msgOf tx = m := by simp [msgOf, hm]
      rw [hmsg] at hd
      simp [print_versioned_transaction_instructions, hm, hd, tagOf]
  refine ⟨Event.submitCall tx sendConfig :: Event.pollCall s w ::
      Event.logErrorSignature s ::
      Event.logErrorConfirmFailed t env.elapsed ::
      (Event.logErrorVersionTag (tagOf tx) :: d) ++ [Event.logErrorRpcError e],
    ?_, by simp, by simp, by simp, by simp, ?_⟩
  · simp [send_transaction, hsub, hpoll, hpr]
  · intro ins h2
    obtain ⟨pid, hpid, m1, m2, m3⟩ := hmem ins h2
    exact ⟨pid, hpid, by simp [m1], by simp [m2], by simp [m3]⟩

/-- C3 witness: a concrete in-bounds legacy transaction whose poll fails. -/
theorem C3_poll_error_dump_witness :
    ∃ tr, send_transaction envPollFail 0 txGood true = some (.error 9, tr) ∧
      Event.logErrorSignature 3 ∈ tr ∧
      Event.logErrorConfirmFailed 0 envPollFail.elapsed ∈ tr ∧
      Event.logErrorRpcError 9 ∈ tr ∧
      Event.logErrorVersionTag (tagOf txGood) ∈ tr ∧
      ∀ ins ∈ (msgOf txGood).instructions, ∃ pid,
        (msgOf txGood).account_keys[ins.program_id_index]? = some pid ∧
        Event.logErrorProgramId pid ∈ tr ∧
        Event.logErrorAccounts ins.accounts ∈ tr ∧
        Event.logErrorData ins.data ∈ tr :=
  C3_poll_error_dump envPollFail 0 txGood true 3 9 rfl rfl (by decide)

/-- C2: when the K-th transaction of a batch is the first whose single
send fails, send_transactions returns that error and the trace shows
exactly the first K transactions submitted, in list order. -/
theorem C2_batch_first_error (env : Env) (t : TradeType) (w : Bool) :
    ∀ (txs : List VersionedTransaction) (k : Nat)
      (y : VersionedTransaction) (e : Err),
      txs[k]? = some y →
      (∀ j x, j < k → txs[j]? = some x →
        txResult env t x w = some (.ok ())) →
      txResult env t y w = some (.error e) →
      ∃ tr, send_transactions env t txs w = some (.error e, tr) ∧
        attempts tr = txs.take (k + 1) := by
  intro txs
  induction txs with
  | nil =>
    intro k y e hk _ _
    simp at hk
  | cons a rest ih =>
    intro k y e hk hok herr
    cases k with
    | zero =>
      simp at hk
      subst hk
      rw [txResult] at herr
      obtain ⟨p, hp, hfst⟩ := Option.map_eq_some'.mp herr
      obtain ⟨r, tr⟩ := p
      simp at hfst
      subst hfst
      refine ⟨tr, ?_, ?_⟩
      · simp [send_transactions, hp]
      · rw [send_transaction_attempts env t a w _ tr hp]
        rfl
    | succ k =>
      have h0 : txResult env t a w = some (.ok ()) :=
        hok 0 a (Nat.succ_pos k) (by simp)
      rw [txResult] at h0
      obtain ⟨p, hp, hfst⟩ := Option.map_eq_some'.mp h0
      obtain ⟨r, tr0⟩ := p
      simp at hfst
      subst hfst
      obtain ⟨tr1, h1, h2⟩ := ih k y e (by simpa using hk)
        (fun j x hj hx => hok (j + 1) x (Nat.succ_lt_succ hj) (by simpa using hx))
        herr
      refine ⟨tr0 ++ tr1, ?_, ?_⟩
      · simp [send_transactions, hp, h1]
      · rw [attempts_append, send_transaction_attempts env t a w _ tr0 hp, h2]
        simp [List.take_succ_cons]

/-- C2 witness: a two-element batch whose second transaction is rejected. -/
theorem C2_batch_first_error_witness :
    ∃ tr, send_transactions envBatch 0 [txLegacyEmpty, txV0Empty] false =
        some (.error 7, tr) ∧
      attempts tr = [txLegacyEmpty, txV0Empty].take 2 :=
  C2_batch_first_error envBatch 0 false [txLegacyEmpty, txV0Empty] 1
    txV0Empty 7 rfl
    (by
      intro j x hj hx
      have hj0 : j = 0 := Nat.lt_one_iff.mp hj
      subst hj0
      simp at hx
      subst hx
      rfl)
    rfl

end SolanaRpc
